import Mathlib

/-!
Verification of the fuel-receipt tracker bot (`src/bot.py`).

The development shallowly embeds the bot's core pipeline:

* `Q` — exact rational numbers as (numerator, denominator) pairs without
  normalisation; the Python code computes on floats, which we model by exact
  rationals (float rounding behaviour is out of scope).  All operations are
  plain `Int`/`Nat` arithmetic so that the kernel can evaluate them.
* `Json`, `parseJson` — a model of `json.loads` (RFC 8259 grammar; the
  `NaN`/`Infinity` extensions and lone-surrogate escapes accepted by Python
  are not representable here and are treated as parse failures).
* `cleanReply`, `analyzeReceiptImage` — the defensive cleaning in
  `analyze_receipt_image`: `strip()`, removal of all occurrences of
  "```json" and "```" (Python `str.replace`), `strip()`, then JSON parsing.
* `handlePhoto`, `appendReceipt` — the store mutation of `handle_photo`:
  id/timestamp assignment, append, save, and the post-save formatting step.
* `loadReceipts` — `load_receipts` over an abstract file (absent or raw text).
* typed `Receipt` records and the aggregation/reporting pipeline of
  `show_total` and `generate_pdf` (month grouping, descending month order,
  ascending date order inside a month, totals, average price per litre,
  PDF element list), plus `generate_pdf_command` including `int(...)`
  year-argument parsing.
-/

/-- Exact rational: numerator and denominator, not normalised.  Denominators
produced by the embedded code are always positive. -/
structure Q where
  n : Int
  d : Nat
deriving DecidableEq, Repr

def Q.ofNat (k : Nat) : Q := ⟨(k : Int), 1⟩

def Q.add (a b : Q) : Q := ⟨a.n * (b.d : Int) + b.n * (a.d : Int), a.d * b.d⟩

def Q.zero : Q := ⟨0, 1⟩

/-- Sum of a list of rationals (right fold, as both iteration orders agree
propositionally). -/
def qsum (l : List Q) : Q := l.foldr Q.add Q.zero

/-- Truthiness of `q > 0` for a float value (denominators are positive in all
reachable states, so the sign is the sign of the numerator). -/
def Q.isPos (a : Q) : Bool := 0 < a.n

/-- Float division `a / b`; only ever used by the code under a `b > 0` guard,
the `b = 0` case is given an arbitrary value. -/
def Q.div (a b : Q) : Q :=
  if b.n = 0 then ⟨0, 1⟩
  else ⟨a.n * (b.d : Int) * (if b.n < 0 then -1 else 1), a.d * b.n.natAbs⟩

/-- JSON values as returned by `json.loads`: objects are insertion-ordered
association lists with unique keys (Python dict semantics). -/
inductive Json where
  | null
  | bool (b : Bool)
  | num (q : Q)
  | str (s : List Char)
  | arr (elems : List Json)
  | obj (fields : List (List Char × Json))

/-- Python `d[k] = v` on a dict: update in place if the key exists, else
append.  The JSON parser also builds objects with this, which models the
last-duplicate-wins behaviour of `json.loads`. -/
def objSet (kvs : List (List Char × Json)) (k : List Char) (v : Json) :
    List (List Char × Json) :=
  match kvs with
  | [] => [(k, v)]
  | (k', v') :: rest => if k' = k then (k', v) :: rest else (k', v') :: objSet rest k v

/-- Python `d[k]` lookup (keys are unique by construction). -/
def objLookup (kvs : List (List Char × Json)) (k : List Char) : Option Json :=
  match kvs with
  | [] => none
  | (k', v) :: rest => if k' = k then some v else objLookup rest k

/-- Python truthiness of a JSON value (`if not receipt_data`). -/
def isFalsy : Json → Bool
  | .null => true
  | .bool b => !b
  | .num q => q.n = 0
  | .str s => s.isEmpty
  | .arr l => l.isEmpty
  | .obj l => l.isEmpty

/-! ### Character and string helpers (over `List Char`) -/

/-- Whitespace stripped by Python `str.strip()` (ASCII part; the uncommon
Unicode spaces are not modelled). -/
def isPySpace (c : Char) : Bool :=
  c == ' ' || c == '\t' || c == '\n' || c == '\r' || c == '\x0b' || c == '\x0c'

/-- Python `str.strip()`. -/
def pyStrip (s : List Char) : List Char :=
  ((s.dropWhile isPySpace).reverse.dropWhile isPySpace).reverse

/-- Whether `p` is a leading segment of `s`. -/
def lpre : List Char → List Char → Bool
  | [], _ => true
  | _ :: _, [] => false
  | a :: as, b :: bs => a == b && lpre as bs

/-- Whether `p` occurs somewhere in `s` as a contiguous segment. -/
def hasSub (p : List Char) : List Char → Bool
  | [] => lpre p []
  | c :: t => lpre p (c :: t) || hasSub p t

/-- Fuel-driven body of `pyReplace`; replaces left-to-right, non-overlapping,
exactly like Python `str.replace`. -/
def repAux (p r : List Char) : Nat → List Char → List Char
  | 0, s => s
  | fuel + 1, s =>
    if lpre p s && !p.isEmpty then r ++ repAux p r fuel (s.drop p.length)
    else
      match s with
      | [] => []
      | c :: t => c :: repAux p r fuel t

/-- Python `s.replace(p, r)` (for non-empty `p`). -/
def pyReplace (s p r : List Char) : List Char := repAux p r (s.length + 1) s

/-! ### JSON parsing (model of `json.loads`) -/

/-- JSON insignificant whitespace. -/
def isJsonWs (c : Char) : Bool := c == ' ' || c == '\t' || c == '\n' || c == '\r'

def skipWs (s : List Char) : List Char := s.dropWhile isJsonWs

def hexVal (c : Char) : Option Nat :=
  if '0' ≤ c ∧ c ≤ '9' then some (c.toNat - 48)
  else if 'a' ≤ c ∧ c ≤ 'f' then some (c.toNat - 87)
  else if 'A' ≤ c ∧ c ≤ 'F' then some (c.toNat - 55)
  else none

def hex4 (c1 c2 c3 c4 : Char) : Option Nat :=
  match hexVal c1, hexVal c2, hexVal c3, hexVal c4 with
  | some a, some b, some c, some d => some (((a * 16 + b) * 16 + c) * 16 + d)
  | _, _, _, _ => none

/-- Parse the remainder of a JSON string (the opening quote already
consumed), returning the decoded characters and the rest of the input.
Escapes per RFC 8259 including surrogate pairs; a lone surrogate (which
CPython would accept) is not representable as a `Char` and fails. -/
def pStr : Nat → List Char → Option (List Char × List Char)
  | 0, _ => none
  | fuel + 1, s =>
    match s with
    | [] => none
    | '"' :: r => some ([], r)
    | '\\' :: e :: r =>
      let cont : Char → List Char → Option (List Char × List Char) := fun ch r' =>
        match pStr fuel r' with
        | some (cs, rest) => some (ch :: cs, rest)
        | none => none
      match e, r with
      | '"', _ => cont '"' r
      | '\\', _ => cont '\\' r
      | '/', _ => cont '/' r
      | 'b', _ => cont (Char.ofNat 8) r
      | 'f', _ => cont (Char.ofNat 12) r
      | 'n', _ => cont '\n' r
      | 'r', _ => cont (Char.ofNat 13) r
      | 't', _ => cont '\t' r
      | 'u', h1 :: h2 :: h3 :: h4 :: r2 =>
        (match hex4 h1 h2 h3 h4 with
         | none => none
         | some cp =>
           if 0xD800 ≤ cp ∧ cp ≤ 0xDBFF then
             match r2 with
             | '\\' :: 'u' :: g1 :: g2 :: g3 :: g4 :: r3 =>
               (match hex4 g1 g2 g3 g4 with
                | some lo =>
                  if 0xDC00 ≤ lo ∧ lo ≤ 0xDFFF then
                    cont (Char.ofNat (0x10000 + (cp - 0xD800) * 0x400 + (lo - 0xDC00))) r3
                  else none
                | none => none)
             | _ => none
           else if 0xDC00 ≤ cp ∧ cp ≤ 0xDFFF then none
           else cont (Char.ofNat cp) r2)
      | _, _ => none
    | c :: r =>
      if c.toNat < 32 then none
      else
        match pStr fuel r with
        | some (cs, rest) => some (c :: cs, rest)
        | none => none

def digitsVal (ds : List Char) : Nat := ds.foldl (fun a c => a * 10 + (c.toNat - 48)) 0

/-- Parse an optional exponent part; `none` means a malformed exponent. -/
def pExp (s : List Char) : Option (Int × List Char) :=
  match s with
  | 'e' :: r | 'E' :: r =>
    let (sgn, r1) : Int × List Char :=
      match r with
      | '+' :: r2 => (1, r2)
      | '-' :: r2 => (-1, r2)
      | _ => (1, r)
    let ds := r1.takeWhile Char.isDigit
    if ds.isEmpty then none
    else some (sgn * (digitsVal ds : Int), r1.dropWhile Char.isDigit)
  | _ => some (0, s)

def mkNum (neg : Bool) (ip : List Char) (fp : List Char) (ex : Int) : Q :=
  let mant : Int := (digitsVal ip * 10 ^ fp.length + digitsVal fp : Nat)
  let mant := if neg then -mant else mant
  if 0 ≤ ex then ⟨mant * 10 ^ ex.toNat, 10 ^ fp.length⟩
  else ⟨mant, 10 ^ fp.length * 10 ^ (-ex).toNat⟩

/-- Parse a JSON number at the head of `s`. -/
def pNum (s : List Char) : Option (Json × List Char) :=
  let (neg, s1) : Bool × List Char :=
    match s with
    | '-' :: r => (true, r)
    | _ => (false, s)
  let ip := s1.takeWhile Char.isDigit
  let r1 := s1.dropWhile Char.isDigit
  if ip.isEmpty then none
  else if 1 < ip.length ∧ ip.headD '0' = '0' then none
  else
    match r1 with
    | '.' :: r2 =>
      let fp := r2.takeWhile Char.isDigit
      if fp.isEmpty then none
      else
        match pExp (r2.dropWhile Char.isDigit) with
        | some (ex, r3) => some (.num (mkNum neg ip fp ex), r3)
        | none => none
    | _ =>
      match pExp r1 with
      | some (ex, r3) => some (.num (mkNum neg ip [] ex), r3)
      | none => none

/-- Parser modes: a single value, the elements of an array (after `[`), or
the members of an object (after `{`), with the members parsed so far. -/
inductive PMode where
  | value
  | elems
  | members (acc : List (List Char × Json))

/-- Recursive-descent JSON parser, fuel-driven so that the kernel can
evaluate it. -/
def pAny : Nat → PMode → List Char → Option (Json × List Char)
  | 0, _, _ => none
  | fuel + 1, .value, s =>
    match skipWs s with
    | 'n' :: 'u' :: 'l' :: 'l' :: r => some (.null, r)
    | 't' :: 'r' :: 'u' :: 'e' :: r => some (.bool true, r)
    | 'f' :: 'a' :: 'l' :: 's' :: 'e' :: r => some (.bool false, r)
    | '"' :: r =>
      (match pStr fuel r with
       | some (cs, rest) => some (.str cs, rest)
       | none => none)
    | '[' :: r =>
      (match skipWs r with
       | ']' :: r2 => some (.arr [], r2)
       | _ => pAny fuel .elems r)
    | '{' :: r =>
      (match skipWs r with
       | '}' :: r2 => some (.obj [], r2)
       | _ => pAny fuel (.members []) r)
    | r => pNum r
  | fuel + 1, .elems, s =>
    match pAny fuel .value s with
    | none => none
    | some (v, r) =>
      match skipWs r with
      | ',' :: r2 =>
        (match pAny fuel .elems r2 with
         | some (.arr es, r3) => some (.arr (v :: es), r3)
         | _ => none)
      | ']' :: r2 => some (.arr [v], r2)
      | _ => none
  | fuel + 1, .members acc, s =>
    match skipWs s with
    | '"' :: r =>
      (match pStr fuel r with
       | none => none
       | some (k, r1) =>
         match skipWs r1 with
         | ':' :: r2 =>
           (match pAny fuel .value r2 with
            | none => none
            | some (v, r3) =>
              match skipWs r3 with
              | ',' :: r4 => pAny fuel (.members (objSet acc k v)) r4
              | '}' :: r4 => some (.obj (objSet acc k v), r4)
              | _ => none)
         | _ => none)
    | _ => none

/-- Model of `json.loads`: parse one value, then only whitespace may remain. -/
def parseJson (s : List Char) : Option Json :=
  match pAny (4 * s.length + 16) .value s with
  | some (j, rest) => if (skipWs rest).isEmpty then some j else none
  | none => none

/-! ### Extraction engine (`analyze_receipt_image`) -/

def fenceJsonTok : List Char := "```json".toList

def fenceTok : List Char := "```".toList

/-- The cleaning in `analyze_receipt_image`:
`text.strip().replace("```json", "").replace("```", "").strip()`. -/
def cleanReply (s : List Char) : List Char :=
  pyStrip (pyReplace (pyReplace (pyStrip s) fenceJsonTok []) fenceTok [])

/-- `analyze_receipt_image`: clean the model reply and parse it as JSON;
any failure yields `none` (the function's `except` branch returns `None`). -/
def analyzeReceiptImage (reply : List Char) : Option Json :=
  parseJson (cleanReply reply)

/-- The six-field shape requested from the model: exactly the keys
`date`/`fuel_type` (strings) and `liters`/`price_per_liter`/`vat`/
`total_price` (numbers). -/
def expectedShape (j : Json) : Bool :=
  match j with
  | .obj kvs =>
    kvs.length = 6
    && (match objLookup kvs "date".toList with | some (.str _) => true | _ => false)
    && (match objLookup kvs "liters".toList with | some (.num _) => true | _ => false)
    && (match objLookup kvs "price_per_liter".toList with | some (.num _) => true | _ => false)
    && (match objLookup kvs "vat".toList with | some (.num _) => true | _ => false)
    && (match objLookup kvs "total_price".toList with | some (.num _) => true | _ => false)
    && (match objLookup kvs "fuel_type".toList with | some (.str _) => true | _ => false)
  | _ => false

/-! ### Record store (`load_receipts` / `save_receipts` / ids) -/

/-- Failure of `json.load` inside `load_receipts` (a `JSONDecodeError`,
which the function does not catch). -/
inductive LoadErr where
  | decodeError
deriving DecidableEq

/-- `load_receipts` over an abstract persisted file: `none` models an absent
file (`FileNotFoundError` → `[]`), `some text` a present file with raw
contents `text`, whose JSON parse failure propagates as an error. -/
def loadReceipts (file : Option (List Char)) : Except LoadErr Json :=
  match file with
  | none => .ok (.arr [])
  | some text =>
    match parseJson text with
    | some j => .ok j
    | none => .error .decodeError

def idKey : List Char := "id".toList

def tsKey : List Char := "timestamp".toList

def dateKey : List Char := "date".toList

def litersKey : List Char := "liters".toList

def pplKey : List Char := "price_per_liter".toList

def vatKey : List Char := "vat".toList

def totalKey : List Char := "total_price".toList

def fuelKey : List Char := "fuel_type".toList

/-- The id/timestamp assignment of `handle_photo`:
`receipt_data['id'] = len(receipts) + 1; receipt_data['timestamp'] = now`. -/
def withMeta (count : Nat) (kvs : List (List Char × Json)) (now : List Char) :
    List (List Char × Json) :=
  objSet (objSet kvs idKey (.num (Q.ofNat (count + 1)))) tsKey (.str now)

/-- Appending one extracted record to the store (`receipts.append(...)`
followed by `save_receipts(receipts)`). -/
def appendReceipt (receipts : List Json) (kvs : List (List Char × Json))
    (now : List Char) : List Json :=
  receipts ++ [.obj (withMeta receipts.length kvs now)]

/-- `reset_data`: `save_receipts([])`. -/
def resetData : List Json := []

/-! ### Date parsing (`datetime.strptime(s, "%Y-%m-%d")`) -/

structure YMD where
  year : Nat
  month : Nat
  day : Nat
deriving DecidableEq

def isLeap (y : Nat) : Bool := y % 4 = 0 && (y % 100 ≠ 0 || y % 400 = 0)

def monthLen (y m : Nat) : Nat :=
  if m = 2 then (if isLeap y then 29 else 28)
  else if m = 4 ∨ m = 6 ∨ m = 9 ∨ m = 11 then 30
  else 31

def digit1to9 (c : Char) : Bool := c.isDigit && c ≠ '0'

/-- CPython's `%m` pattern `(1[0-2]|0[1-9]|[1-9])`, two digits first. -/
def parseMonth2 (a b : Char) : Option Nat :=
  if a = '1' ∧ (b = '0' ∨ b = '1' ∨ b = '2') then some (10 + (b.toNat - 48))
  else if a = '0' ∧ digit1to9 b then some (b.toNat - 48)
  else none

/-- CPython's `%d` pattern `(3[01]|[12]\d|0[1-9]|[1-9])`, two digits first. -/
def parseDay2 (a b : Char) : Option Nat :=
  if a = '3' ∧ (b = '0' ∨ b = '1') then some (30 + (b.toNat - 48))
  else if (a = '1' ∨ a = '2') ∧ b.isDigit then some ((a.toNat - 48) * 10 + (b.toNat - 48))
  else if a = '0' ∧ digit1to9 b then some (b.toNat - 48)
  else none

/-- `datetime.strptime(s, "%Y-%m-%d")`: four-digit year, one/two-digit month
and day, whole string consumed, then `datetime` range validation (year ≥ 1,
day within the month's length). -/
def parseDate (s : List Char) : Option YMD :=
  match s with
  | y1 :: y2 :: y3 :: y4 :: '-' :: r =>
    if y1.isDigit && y2.isDigit && y3.isDigit && y4.isDigit then
      let y := digitsVal [y1, y2, y3, y4]
      let md : Option (Nat × List Char) :=
        match r with
        | a :: b :: '-' :: r2 =>
          (match parseMonth2 a b with
           | some m => some (m, r2)
           | none =>
             match r with
             | a' :: '-' :: r3 => if digit1to9 a' then some (a'.toNat - 48, r3) else none
             | _ => none)
        | a :: '-' :: r2 => if digit1to9 a then some (a.toNat - 48, r2) else none
        | _ => none
      match md with
      | none => none
      | some (m, r2) =>
        let dd : Option Nat :=
          match r2 with
          | [a, b] => parseDay2 a b
          | [a] => if digit1to9 a then some (a.toNat - 48) else none
          | _ => none
        match dd with
        | none => none
        | some d =>
          if 1 ≤ y ∧ d ≤ monthLen y m then some ⟨y, m, d⟩ else none
    else none
  | _ => none

/-- Whether a JSON value supports Python float formatting (`:.2f` works on
`int`, `float` and `bool`, fails on anything else). -/
def numLike : Option Json → Bool
  | some (.num _) => true
  | some (.bool _) => true
  | _ => false

/-- Whether the post-save reply formatting of `handle_photo` succeeds:
`strptime(receipt_data['date'], '%Y-%m-%d')` and the `:.2f`/`:.3f`
interpolations of the numeric fields, plus the `fuel_type` lookup. -/
def formattingOk (kvs : List (List Char × Json)) : Bool :=
  (match objLookup kvs dateKey with
   | some (.str d) => (parseDate d).isSome
   | _ => false)
  && (objLookup kvs fuelKey).isSome
  && numLike (objLookup kvs litersKey)
  && numLike (objLookup kvs pplKey)
  && numLike (objLookup kvs vatKey)
  && numLike (objLookup kvs totalKey)

inductive PhotoOutcome where
  | success
  | analysisFailed
  | processingError
deriving DecidableEq

/-- `handle_photo`, given the store contents that `load_receipts` returned,
the model's text reply and the current timestamp.  Mirrors the source order:
falsy analysis results are reported without touching the store; a non-dict
JSON value raises on `receipt_data['id'] = ...` before the store is touched;
a dict is appended and saved *before* the date/number formatting, so a
formatting failure still leaves the new record in the store. -/
def handlePhoto (receipts : List Json) (reply now : List Char) :
    List Json × PhotoOutcome :=
  match analyzeReceiptImage reply with
  | none => (receipts, .analysisFailed)
  | some rd =>
    if isFalsy rd then (receipts, .analysisFailed)
    else
      match rd with
      | .obj kvs =>
        if formattingOk (withMeta receipts.length kvs now) then
          (appendReceipt receipts kvs now, .success)
        else
          (appendReceipt receipts kvs now, .processingError)
      | _ => (receipts, .processingError)

/-- Stores reachable from a fresh (empty) store by photo handling and
resets. -/
inductive Reachable : List Json → Prop where
  | init : Reachable []
  | photo {s : List Json} (h : Reachable s) (reply now : List Char) :
      Reachable (handlePhoto s reply now).fst
  | reset {s : List Json} (h : Reachable s) : Reachable resetData

/-- The `id` field of a stored record. -/
def getId (j : Json) : Option Json :=
  match j with
  | .obj kvs => objLookup kvs idKey
  | _ => none

/-! ### Typed records and aggregation (`show_total` / `generate_pdf`) -/

/-- A well-formed stored record, as consumed by the aggregation and report
code: `date` is the `strptime`-parsed value of the stored date string, the
numeric fields are exact rationals, `fuel_type` is kept as raw JSON since
the code only ever displays it, and `dateStr` is the RAW stored date string
(`x['date']`), which is what `generate_pdf` sorts rows by. -/
structure Receipt where
  date : YMD
  liters : Q
  price_per_liter : Q
  vat : Q
  total_price : Q
  fuel_type : Json
  dateStr : List Char

def toQ : Json → Option Q
  | .num q => some q
  | .bool b => some (if b then Q.ofNat 1 else Q.ofNat 0)
  | _ => none

/-- Conversion of a stored JSON record to a typed `Receipt`; `none` models
the exceptions (`KeyError`/`TypeError`/`ValueError`) that the report code
raises on a malformed record. -/
def toReceipt (j : Json) : Option Receipt :=
  match j with
  | .obj kvs =>
    match objLookup kvs dateKey with
    | some (.str ds) =>
      match parseDate ds,
            (objLookup kvs litersKey).bind toQ,
            (objLookup kvs pplKey).bind toQ,
            (objLookup kvs vatKey).bind toQ,
            (objLookup kvs totalKey).bind toQ,
            objLookup kvs fuelKey with
      | some d, some l, some p, some v, some t, some ft => some ⟨d, l, p, v, t, ft, ds⟩
      | _, _, _, _, _, _ => none
    | _ => none
  | _ => none

/-- Python dict lookup on an insertion-ordered association list. -/
def aLookup {κ α : Type} [DecidableEq κ] : List (κ × α) → κ → Option α
  | [], _ => none
  | (k', v) :: rest, k => if k' = k then some v else aLookup rest k

/-- Python dict in-place update of an existing key. -/
def aUpdate {κ α : Type} [DecidableEq κ] : List (κ × α) → κ → α → List (κ × α)
  | [], _, _ => []
  | (k', v') :: rest, k, v => if k' = k then (k', v) :: rest else (k', v') :: aUpdate rest k v

def digitChar (n : Nat) : Char := Char.ofNat (48 + n % 10)

def natDigitsAux : Nat → Nat → List Char
  | 0, _ => []
  | fuel + 1, n => if n < 10 then [digitChar n] else natDigitsAux fuel (n / 10) ++ [digitChar (n % 10)]

/-- Decimal digits of a natural number (Python `str(n)` for `n ≥ 0`). -/
def natDigits (n : Nat) : List Char := natDigitsAux (n + 1) n

/-- Python `str(i)` for an `int`. -/
def intDigits (i : Int) : List Char :=
  if i < 0 then '-' :: natDigits i.natAbs else natDigits i.toNat

/-- `strftime('%B')` month names under the C locale. -/
def monthName (m : Nat) : List Char :=
  (["January", "February", "March", "April", "May", "June", "July",
    "August", "September", "October", "November", "December"].map
    String.toList).getD (m - 1) []

/-- Two-digit zero padding, as `strftime('%m')` renders the month. -/
def pad2 (n : Nat) : List Char := if n < 10 then '0' :: natDigits n else natDigits n

/-- The month grouping key `date_obj.strftime('%Y-%m')` as the string the
code actually uses: zero-padded month, unpadded year (glibc `%Y` renders
years below 1000 without padding). -/
def monthKeyStr (d : YMD) : List Char := natDigits d.year ++ '-' :: pad2 d.month

/-- `date_obj.strftime('%B %Y')`; the names are already title-case, so the
`.title()` in `generate_pdf` is the identity on it. -/
def monthLabelOf (d : YMD) : List Char :=
  monthName d.month ++ " ".toList ++ natDigits d.year

/-- Python string `<=` (code-point lexicographic), the comparison behind
`sorted` on the month-key strings and on the raw date strings. -/
def strLeB : List Char → List Char → Bool
  | [], _ => true
  | _ :: _, [] => false
  | a :: as, b :: bs =>
    if a.toNat < b.toNat then true
    else if b.toNat < a.toNat then false
    else strLeB as bs

/-- Row order of `generate_pdf`: `sorted(..., key=lambda x: x['date'])`
compares the RAW stored date strings, not parsed dates. -/
def rawDateLe (a b : Receipt) : Prop := strLeB a.dateStr b.dateStr = true

instance : DecidableRel rawDateLe := fun a b =>
  inferInstanceAs (Decidable (strLeB a.dateStr b.dateStr = true))

/-- Month order of `sorted(monthly_data.keys(), reverse=True)`: reverse
string order on the `'%Y-%m'` keys. -/
def keyStrGe (a b : List Char) : Prop := strLeB b a = true

instance : DecidableRel keyStrGe := fun a b =>
  inferInstanceAs (Decidable (strLeB b a = true))

def keyStrGt (a b : List Char) : Prop := keyStrGe a b ∧ a ≠ b

/-- Per-month accumulator of `show_total`: the display name, the count and
the three sums. -/
structure MonthAgg where
  name : List Char
  count : Nat
  liters : Q
  vat : Q
  total_price : Q
deriving DecidableEq

/-- One iteration of the grouping loop of `show_total` (initialise the
month's entry with its name and zeros if absent, then `+=` each field). -/
def aggStep (m : List (List Char × MonthAgg)) (r : Receipt) :
    List (List Char × MonthAgg) :=
  match aLookup m (monthKeyStr r.date) with
  | none =>
    m ++ [(monthKeyStr r.date,
      ⟨monthLabelOf r.date, 1, Q.add Q.zero r.liters, Q.add Q.zero r.vat,
       Q.add Q.zero r.total_price⟩)]
  | some a =>
    aUpdate m (monthKeyStr r.date) ⟨a.name, a.count + 1, Q.add a.liters r.liters,
      Q.add a.vat r.vat, Q.add a.total_price r.total_price⟩

/-- The `monthly_data` dict built by `show_total`, in insertion order,
keyed by the `'%Y-%m'` strings. -/
def aggregate (rs : List Receipt) : List (List Char × MonthAgg) :=
  rs.foldl aggStep []

/-- Per-month accumulator of `generate_pdf`: the display name and the
month's records in insertion order (the totals are sums over these). -/
def pdfGroupStep (m : List (List Char × (List Char × List Receipt))) (r : Receipt) :
    List (List Char × (List Char × List Receipt)) :=
  match aLookup m (monthKeyStr r.date) with
  | none => m ++ [(monthKeyStr r.date, (monthLabelOf r.date, [r]))]
  | some nl => aUpdate m (monthKeyStr r.date) (nl.1, nl.2 ++ [r])

def pdfGroups (rs : List Receipt) : List (List Char × (List Char × List Receipt)) :=
  rs.foldl pdfGroupStep []

/-- Chronological order on the parsed dates — what the claim asserts of the
row order; `generate_pdf` actually sorts by the raw strings (`rawDateLe`),
which differs on `strptime`-accepted unpadded dates. -/
def dateLe (a b : Receipt) : Prop :=
  a.date.year < b.date.year
  ∨ (a.date.year = b.date.year
     ∧ (a.date.month < b.date.month
        ∨ (a.date.month = b.date.month ∧ a.date.day ≤ b.date.day)))

instance : DecidableRel dateLe := fun a b =>
  inferInstanceAs (Decidable (a.date.year < b.date.year
    ∨ (a.date.year = b.date.year
       ∧ (a.date.month < b.date.month
          ∨ (a.date.month = b.date.month ∧ a.date.day ≤ b.date.day)))))

def totalLiters (rs : List Receipt) : Q := qsum (rs.map Receipt.liters)

def totalVat (rs : List Receipt) : Q := qsum (rs.map Receipt.vat)

def totalPriceSum (rs : List Receipt) : Q := qsum (rs.map Receipt.total_price)

/-- `avg_price_per_liter = total_price / total_liters if total_liters > 0
else 0` (`generate_pdf`). -/
def avgPricePerLiter (rs : List Receipt) : Q :=
  if (totalLiters rs).isPos then Q.div (totalPriceSum rs) (totalLiters rs)
  else Q.zero

/-! ### Number and text formatting -/

/-- `q * 10^prec` rounded to the nearest integer, ties to even — the
rounding used by Python's fixed-point float formatting, applied to the
exact rational value. -/
def qRoundScaled (q : Q) (scale : Nat) : Int :=
  let sn : Int := q.n * (scale : Int)
  let d : Int := (q.d : Int)
  let fl := Int.fdiv sn d
  let rem := sn - fl * d
  if 2 * rem < d then fl
  else if d < 2 * rem then fl + 1
  else if fl % 2 = 0 then fl else fl + 1

/-- Python `f"{x:.prec\x66}"` fixed-point formatting on the exact value
(the bot's floats carry receipt amounts, exactly representable at this
scale). -/
def formatFixed (prec : Nat) (q : Q) : List Char :=
  let n := qRoundScaled q (10 ^ prec)
  let sign : List Char := if n < 0 || (n = 0 && q.n < 0) then ['-'] else []
  let m := n.natAbs
  let ip := m / 10 ^ prec
  let fp := m % 10 ^ prec
  let fds := natDigits fp
  sign ++ natDigits ip ++ '.' :: (List.replicate (prec - fds.length) '0' ++ fds)

/-! ### Text summary (`show_total`) -/

def sepLine : List Char := List.replicate 30 '='

def showTotalHeader : List Char := "📊 TOTAUX MENSUELS\n".toList ++ sepLine ++ "\n\n".toList

/-- One month block of the `show_total` text. -/
def showTotalBlock (m : List (List Char × MonthAgg)) (k : List Char) : List Char :=
  match aLookup m k with
  | some a =>
    "📅 ".toList ++ a.name ++ "\n".toList
    ++ "   • Tickets: ".toList ++ natDigits a.count ++ "\n".toList
    ++ "   • Litres: ".toList ++ formatFixed 2 a.liters ++ " L\n".toList
    ++ "   • TVA: ".toList ++ formatFixed 2 a.vat ++ " €\n".toList
    ++ "   • Total: ".toList ++ formatFixed 2 a.total_price ++ " €\n\n".toList
  | none => []

/-- The global totals block of the `show_total` text. -/
def showTotalFooter (rs : List Receipt) : List Char :=
  sepLine ++ "\n".toList
  ++ "💰 TOTAL GÉNÉRAL\n".toList
  ++ "   • Tickets: ".toList ++ natDigits rs.length ++ "\n".toList
  ++ "   • Litres: ".toList ++ formatFixed 2 (totalLiters rs) ++ " L\n".toList
  ++ "   • TVA: ".toList ++ formatFixed 2 (totalVat rs) ++ " €\n".toList
  ++ "   • Total: ".toList ++ formatFixed 2 (totalPriceSum rs) ++ " €\n".toList

/-- The full text built by `show_total` for a non-empty store: header, one
block per month in descending key order, and the global totals footer. -/
def showTotalResponse (rs : List Receipt) : List Char :=
  showTotalHeader
  ++ (List.insertionSort keyStrGe ((aggregate rs).map Prod.fst)).flatMap
       (showTotalBlock (aggregate rs))
  ++ showTotalFooter rs

/-- The messages `show_total` sends: the fixed empty-store notice, or the
whole summary as a single message — the source has no length check on this
path. -/
def showTotalUnits (rs : List Receipt) : List (List Char) :=
  if rs.isEmpty then ["📭 Aucun ticket enregistré pour le moment.".toList]
  else [showTotalResponse rs]

/-- The chunking of `show_list`: slices of at most 4000 characters,
`[response[i:i+4000] for i in range(0, len(response), 4000)]`. -/
def chunk4000Aux : Nat → List Char → List (List Char)
  | 0, _ => []
  | fuel + 1, s =>
    match s with
    | [] => []
    | c :: t => (c :: t).take 4000 :: chunk4000Aux fuel ((c :: t).drop 4000)

def chunk4000 (s : List Char) : List (List Char) := chunk4000Aux (s.length + 1) s

/-- The messages `show_list` sends for its formatted text: split only when
the text exceeds 4000 characters. -/
def showListUnits (text : List Char) : List (List Char) :=
  if 4000 < text.length then chunk4000 text else [text]

/-! ### PDF report (`generate_pdf`) -/

/-- Abstract document elements handed to the PDF layout collaborator, in
order of appearance. -/
inductive PdfElem where
  | title (text : List Char)
  | para (text : List Char)
  | spacerE
  | monthHeader (text : List Char)
  | monthTable (key : List Char) (rows : List Receipt) (totLiters totVat totPrice : Q)
  | pageBreakE
  | summaryTable (tickets : Nat) (liters avg vat total : Q)

def noTicketsNotice : List Char := "Aucun ticket trouvé pour cette période.".toList

def pdfTitle (year : Option Int) : List Char :=
  match year with
  | some y => "Rapport Carburant ".toList ++ intDigits y
  | none => "Rapport Carburant - Tous les tickets".toList

/-- The section `generate_pdf` emits for one month group: subtitle, spacer,
and the table whose rows are the month's records sorted by the raw date
string (`sorted(..., key=lambda x: x['date'])`), with the month's totals. -/
def monthSection (k : List Char) (nl : List Char × List Receipt) : List PdfElem :=
  [.monthHeader ("📅 ".toList ++ nl.1), .spacerE,
   .monthTable k (List.insertionSort rawDateLe nl.2)
     (qsum (nl.2.map Receipt.liters)) (qsum (nl.2.map Receipt.vat))
     (qsum (nl.2.map Receipt.total_price)),
   .spacerE]

/-- `generate_pdf(receipts, year)`: optional year filter, title, and either
the explicit empty notice or the per-month sections (most recent month
first) followed by the annual summary page. -/
def generatePdf (receipts0 : List Receipt) (year : Option Int) (now : List Char) :
    List PdfElem :=
  let receipts : List Receipt :=
    match year with
    | some y => receipts0.filter (fun r => ((r.date.year : Int) == y))
    | none => receipts0
  let titleText := pdfTitle year
  if receipts.isEmpty then
    [.title titleText, .spacerE, .para noTicketsNotice]
  else
    let groups := pdfGroups receipts
    let keys := List.insertionSort keyStrGe (groups.map Prod.fst)
    [.title titleText, .para ("Généré le ".toList ++ now), .spacerE]
    ++ keys.flatMap (fun k => monthSection k ((aLookup groups k).getD ([], [])))
    ++ [.pageBreakE, .title "📊 RÉSUMÉ ANNUEL".toList, .spacerE,
        .summaryTable receipts.length (totalLiters receipts) (avgPricePerLiter receipts)
          (totalVat receipts) (totalPriceSum receipts)]

/-- The month keys of the tables of a document, in order of appearance. -/
def monthTableKeys (es : List PdfElem) : List (List Char) :=
  es.filterMap (fun e =>
    match e with
    | .monthTable k _ _ _ _ => some k
    | _ => none)

/-! ### `/pdf` command (`generate_pdf_command`) and `int(...)` parsing -/

/-- Digit run with single underscores between digits (Python 3 int
literals), after the first digit. -/
def pyIntDigitsAux : List Char → Bool
  | [] => true
  | '_' :: c :: r => c.isDigit && pyIntDigitsAux r
  | '_' :: [] => false
  | c :: r => c.isDigit && pyIntDigitsAux r

def pyIntDigits : List Char → Bool
  | [] => false
  | c :: r => c.isDigit && pyIntDigitsAux r

/-- Python `int(s)`: strip whitespace, optional sign, decimal digits with
optional single underscores between them (non-ASCII digits not modelled). -/
def pyInt (s : List Char) : Option Int :=
  let t := pyStrip s
  let (sgn, t1) : Int × List Char :=
    match t with
    | '+' :: r => (1, r)
    | '-' :: r => (-1, r)
    | _ => (1, t)
  if pyIntDigits t1 then some (sgn * (digitsVal (t1.filter (fun c => c ≠ '_')) : Int))
  else none

inductive PdfCmdReply where
  | errorMsg
  | noTickets
  | usageHint
  | sentDocument
deriving DecidableEq

structure PdfCmdResult where
  fileAfter : Option (List Char)
  document : Option (List PdfElem)
  reply : PdfCmdReply

/-- The document-building tail of `generate_pdf_command`: every stored
record flows through `strptime`/float formatting inside `generate_pdf`, so
one malformed record raises and the `except` branch answers with the error
message and no document. -/
def pdfRunGen (file : Option (List Char)) (now : List Char) (receipts : Json)
    (year : Option Int) : PdfCmdResult :=
  match receipts with
  | .arr l =>
    match l.mapM toReceipt with
    | some rs => ⟨file, some (generatePdf rs year now), .sentDocument⟩
    | none => ⟨file, none, .errorMsg⟩
  | _ => ⟨file, none, .errorMsg⟩

/-- `generate_pdf_command`: load the store (errors caught by the `except`
branch), answer the no-tickets message for a falsy store, then parse the
optional year argument with `int(...)` — a malformed year answers the usage
hint before anything else happens.  The command never writes the store. -/
def generatePdfCommand (file : Option (List Char)) (args : List (List Char))
    (now : List Char) : PdfCmdResult :=
  match loadReceipts file with
  | .error _ => ⟨file, none, .errorMsg⟩
  | .ok receipts =>
    if isFalsy receipts then ⟨file, none, .noTickets⟩
    else
      match args with
      | [] => pdfRunGen file now receipts none
      | a :: _ =>
        match pyInt a with
        | none => ⟨file, none, .usageHint⟩
        | some y => pdfRunGen file now receipts (some y)

/-! ### Concrete inputs used by witnesses and counterexamples -/

/-- Fifty single-receipt months (January 2000 … January 2049): enough data
to push the `show_total` summary text above 4000 characters. -/
def c8Input : List Receipt :=
  (List.range 50).map (fun i =>
    { date := ⟨2000 + i, 1, 1⟩
      liters := ⟨40, 1⟩
      price_per_liter := ⟨3, 2⟩
      vat := ⟨9, 1⟩
      total_price := ⟨60, 1⟩
      fuel_type := .str "GAZOLE".toList
      dateStr := natDigits (2000 + i) ++ "-01-01".toList })

/-- Generic field access on a JSON object. -/
def getField (j : Json) (k : List Char) : Option Json :=
  match j with
  | .obj kvs => objLookup kvs k
  | _ => none

/-- A valid six-field reply body (no code fences inside). -/
def c1Body : List Char :=
  "\x7b\"date\": \"2025-01-15\", \"liters\": 40, \"price_per_liter\": 2, \"vat\": 9, \"total_price\": 60, \"fuel_type\": \"GAZOLE\"\x7d".toList

def c1Json : Json :=
  .obj [("date".toList, .str "2025-01-15".toList),
        ("liters".toList, .num ⟨40, 1⟩),
        ("price_per_liter".toList, .num ⟨2, 1⟩),
        ("vat".toList, .num ⟨9, 1⟩),
        ("total_price".toList, .num ⟨60, 1⟩),
        ("fuel_type".toList, .str "GAZOLE".toList)]

/-- A valid six-field reply body whose `fuel_type` string contains a code
fence. -/
def c1CexBody : List Char :=
  "\x7b\"date\": \"2025-01-15\", \"liters\": 40, \"price_per_liter\": 2, \"vat\": 9, \"total_price\": 60, \"fuel_type\": \"A```B\"\x7d".toList

def c1CexJson : Json :=
  .obj [("date".toList, .str "2025-01-15".toList),
        ("liters".toList, .num ⟨40, 1⟩),
        ("price_per_liter".toList, .num ⟨2, 1⟩),
        ("vat".toList, .num ⟨9, 1⟩),
        ("total_price".toList, .num ⟨60, 1⟩),
        ("fuel_type".toList, .str "A```B".toList)]

def c1CexParsed : Json :=
  .obj [("date".toList, .str "2025-01-15".toList),
        ("liters".toList, .num ⟨40, 1⟩),
        ("price_per_liter".toList, .num ⟨2, 1⟩),
        ("vat".toList, .num ⟨9, 1⟩),
        ("total_price".toList, .num ⟨60, 1⟩),
        ("fuel_type".toList, .str "AB".toList)]

/-- A well-formed JSON object reply with none of the expected keys. -/
def c2CexReply : List Char := "\x7b\"foo\": 1\x7d".toList

/-- A prose-only reply. -/
def c2Reply : List Char := "pas de json ici".toList

def c3Reply : List Char := "\x7b\"a\": 1\x7d".toList

/-- Whether extraction produced something `handle_photo` will store: a
truthy JSON object (a non-empty dict). -/
def extractionUsable (reply : List Char) : Bool :=
  match analyzeReceiptImage reply with
  | some (.obj (_ :: _)) => true
  | _ => false

def c3Store : List Json :=
  (handlePhoto (handlePhoto [] c3Reply "T1".toList).fst c3Reply "T2".toList).fst

def c6Receipt : Receipt :=
  ⟨⟨2025, 1, 15⟩, ⟨40, 1⟩, ⟨3, 2⟩, ⟨9, 1⟩, ⟨60, 1⟩, .str "GAZOLE".toList, "2025-01-15".toList⟩

def c4A : Receipt :=
  ⟨⟨2025, 1, 15⟩, ⟨40, 1⟩, ⟨3, 2⟩, ⟨9, 1⟩, ⟨60, 1⟩, .str "GAZOLE".toList, "2025-01-15".toList⟩

def c7Receipt : Receipt :=
  ⟨⟨2025, 2, 1⟩, ⟨50, 1⟩, ⟨3, 2⟩, ⟨12, 1⟩, ⟨75, 1⟩, .str "E10".toList, "2025-02-01".toList⟩

/-- A receipt whose stored date string is zero-padded, as the bot itself
writes dates. -/
def c5X : Receipt :=
  ⟨⟨2025, 2, 15⟩, ⟨40, 1⟩, ⟨3, 2⟩, ⟨9, 1⟩, ⟨60, 1⟩, .str "GAZOLE".toList, "2025-02-15".toList⟩

/-- A receipt whose stored date string is the `strptime`-accepted unpadded
form `2025-2-1`: `handle_photo` validates it (line 136) and stores it
verbatim. -/
def c5Y : Receipt :=
  ⟨⟨2025, 2, 1⟩, ⟨35, 1⟩, ⟨3, 2⟩, ⟨8, 1⟩, ⟨50, 1⟩, .str "SP95".toList, "2025-2-1".toList⟩

/-! ## Helper lemmas -/

theorem Q.zero_add (a : Q) : Q.add Q.zero a = a := by
  cases a with
  | mk n d => simp [Q.add, Q.zero]

theorem Q.add_zero (a : Q) : Q.add a Q.zero = a := by
  cases a with
  | mk n d => simp [Q.add, Q.zero]

theorem Q.add_comm (a b : Q) : Q.add a b = Q.add b a := by
  cases a; cases b
  simp only [Q.add, Q.mk.injEq]
  constructor
  · ring
  · exact Nat.mul_comm _ _

theorem Q.add_assoc (a b c : Q) : Q.add (Q.add a b) c = Q.add a (Q.add b c) := by
  cases a; cases b; cases c
  simp only [Q.add, Q.mk.injEq]
  constructor
  · push_cast
    ring
  · exact Nat.mul_assoc _ _ _

theorem Q.add_left_comm (a b c : Q) : Q.add a (Q.add b c) = Q.add b (Q.add a c) := by
  rw [← Q.add_assoc, Q.add_comm a b, Q.add_assoc]

theorem qsum_cons (x : Q) (l : List Q) : qsum (x :: l) = Q.add x (qsum l) := rfl

theorem qsum_perm {l l' : List Q} (h : l.Perm l') : qsum l = qsum l' := by
  induction h with
  | nil => rfl
  | cons x _ ih => simp [qsum_cons, ih]
  | swap x y l => simp [qsum_cons, Q.add_left_comm]
  | trans _ _ ih1 ih2 => rw [ih1, ih2]

theorem objLookup_objSet_self (kvs : List (List Char × Json)) (k : List Char) (v : Json) :
    objLookup (objSet kvs k v) k = some v := by
  induction kvs with
  | nil => simp [objSet, objLookup]
  | cons p rest ih =>
    by_cases h : p.1 = k
    · simp [objSet, objLookup, h]
    · simp [objSet, objLookup, h, ih]

theorem objLookup_objSet_other (kvs : List (List Char × Json)) {k k' : List Char} (v : Json)
    (h : k' ≠ k) : objLookup (objSet kvs k' v) k = objLookup kvs k := by
  induction kvs with
  | nil => simp [objSet, objLookup, h]
  | cons p rest ih =>
    by_cases hp : p.1 = k'
    · simp [objSet, objLookup, hp, h]
    · simp [objSet, objLookup, hp, ih]

theorem appendReceipt_length (s : List Json) (kvs : List (List Char × Json)) (now : List Char) :
    (appendReceipt s kvs now).length = s.length + 1 := by
  simp [appendReceipt]

theorem get_concat_len {α : Type} (l : List α) (a : α) (h : l.length < (l ++ [a]).length) :
    (l ++ [a]).get ⟨l.length, h⟩ = a := by
  induction l with
  | nil => rfl
  | cons x t ih => exact ih (by simp)

/-- `handle_photo` either leaves the store untouched or appends exactly one
record with the fresh id and timestamp. -/
theorem handlePhoto_fst (s : List Json) (reply now : List Char) :
    (handlePhoto s reply now).fst = s
    ∨ ∃ kvs, (handlePhoto s reply now).fst = appendReceipt s kvs now := by
  unfold handlePhoto
  cases ha : analyzeReceiptImage reply with
  | none => left; rfl
  | some rd =>
    by_cases hf : isFalsy rd
    · left; simp [hf]
    · cases rd with
      | obj kvs =>
        by_cases hfo : formattingOk (withMeta s.length kvs now)
        · right; exact ⟨kvs, by simp [hf, hfo]⟩
        · right; exact ⟨kvs, by simp [hf, hfo]⟩
      | null => left; simp [hf]
      | bool b => left; simp [hf]
      | num q => left; simp [hf]
      | str t => left; simp [hf]
      | arr l => left; simp [hf]

theorem appendReceipt_id_invariant (s : List Json) (kvs : List (List Char × Json))
    (now : List Char)
    (ih : ∀ i (hi : i < s.length), getId (s.get ⟨i, hi⟩) = some (.num (Q.ofNat (i + 1))))
    (i : Nat) (hi : i < (appendReceipt s kvs now).length) :
    getId ((appendReceipt s kvs now).get ⟨i, hi⟩) = some (.num (Q.ofNat (i + 1))) := by
  have hlen : (appendReceipt s kvs now).length = s.length + 1 := appendReceipt_length s kvs now
  rcases Nat.lt_or_ge i s.length with hlt | hge
  · have : (appendReceipt s kvs now).get ⟨i, hi⟩ = s.get ⟨i, hlt⟩ := by
      unfold appendReceipt
      exact List.get_append i hlt
    rw [this]
    exact ih i hlt
  · have hieq : i = s.length := by omega
    subst hieq
    have : (appendReceipt s kvs now).get ⟨s.length, hi⟩ = .obj (withMeta s.length kvs now) :=
      get_concat_len s _ hi
    rw [this]
    show objLookup (objSet (objSet kvs idKey (.num (Q.ofNat (s.length + 1)))) tsKey
      (.str now)) idKey = some (.num (Q.ofNat (s.length + 1)))
    have hne : tsKey ≠ idKey := by decide
    rw [objLookup_objSet_other _ _ hne, objLookup_objSet_self]

/-! ## Claim theorems -/

/-- C3: in every store reachable from the empty store by photo handling and
resets, the record at (0-based) position `i` carries `id = i + 1`, so ids
are exactly 1..N, unique, the i-th appended record has id i, and the first
append after a reset gets id 1; moreover each append grows the store by
exactly one record. -/
theorem c3_ids (s : List Json) (h : Reachable s) :
    (∀ i (hi : i < s.length), getId (s.get ⟨i, hi⟩) = some (.num (Q.ofNat (i + 1))))
    ∧ ∀ kvs now, (appendReceipt s kvs now).length = s.length + 1 := by
  refine ⟨?_, fun kvs now => appendReceipt_length s kvs now⟩
  induction h with
  | init => intro i hi; simp at hi
  | photo h reply now ih =>
    rcases handlePhoto_fst _ reply now with heq | ⟨kvs, heq⟩
    · rw [heq]; exact ih
    · rw [heq]; exact appendReceipt_id_invariant _ kvs now ih
  | reset h ih => intro i hi; simp [resetData] at hi

set_option maxRecDepth 2000 in
/-- C3 witness: two photos on an empty store; the second record has id 2. -/
theorem c3_witness :
    Reachable c3Store
    ∧ getId (c3Store.get ⟨1, by decide⟩) = some (.num (Q.ofNat 2)) := by
  have hr : Reachable c3Store :=
    Reachable.photo (Reachable.photo Reachable.init c3Reply "T1".toList) c3Reply "T2".toList
  exact ⟨hr, (c3_ids c3Store hr).1 1 (by decide)⟩

/-- C6: the average price per litre of `generate_pdf` equals
`total_price / total_liters` whenever the code's positivity guard holds, and
is zero whenever the total litre count is zero. -/
theorem c6_avg_guard (rs : List Receipt) :
    ((totalLiters rs).isPos = true →
      avgPricePerLiter rs = Q.div (totalPriceSum rs) (totalLiters rs))
    ∧ ((totalLiters rs).n = 0 → avgPricePerLiter rs = Q.zero) := by
  constructor
  · intro h
    simp [avgPricePerLiter, h]
  · intro h
    simp [avgPricePerLiter, Q.isPos, h]

/-- C6 witness: one 40-litre receipt; the guard holds and the average is the
quotient. -/
theorem c6_witness :
    (totalLiters [c6Receipt]).isPos = true
    ∧ avgPricePerLiter [c6Receipt] = Q.div (totalPriceSum [c6Receipt]) (totalLiters [c6Receipt]) :=
  ⟨by decide, (c6_avg_guard [c6Receipt]).1 (by decide)⟩

/-- C9 (amended): a malformed year argument produces no document and leaves
the store untouched, but the usage hint is only sent when the store loaded
and is non-empty; an unreadable store gets the generic error reply and an
empty store the no-tickets reply, in both cases before the year is even
examined. -/
theorem c9_pdf_command (file : Option (List Char)) (args : List (List Char))
    (now a : List Char) (rest : List (List Char)) (hargs : args = a :: rest)
    (hint : pyInt a = none) :
    (generatePdfCommand file args now).document = none
    ∧ (generatePdfCommand file args now).fileAfter = file
    ∧ (generatePdfCommand file args now).reply =
        (match loadReceipts file with
         | .error _ => .errorMsg
         | .ok receipts => if isFalsy receipts then .noTickets else .usageHint) := by
  subst hargs
  unfold generatePdfCommand
  cases hl : loadReceipts file with
  | error e => exact ⟨rfl, rfl, rfl⟩
  | ok receipts =>
    by_cases hf : isFalsy receipts
    · simp [hf]
    · simp [hf, hint]

/-- C9 witness: store `[1]` (present, truthy), year argument `20x5`: the
reply is the usage hint, no document, store unchanged. -/
theorem c9_witness :
    pyInt "20x5".toList = none
    ∧ (generatePdfCommand (some "[1]".toList) ["20x5".toList] []).document = none
    ∧ (generatePdfCommand (some "[1]".toList) ["20x5".toList] []).fileAfter = some "[1]".toList
    ∧ (generatePdfCommand (some "[1]".toList) ["20x5".toList] []).reply = .usageHint := by
  have h := c9_pdf_command (some "[1]".toList) ["20x5".toList] [] "20x5".toList [] rfl rfl
  exact ⟨rfl, h.1, h.2.1, h.2.2.trans rfl⟩

/-- C9 counterexample: with an empty store (absent file) and the same
malformed year, the command replies with the no-tickets message, not the
usage hint, because the empty-store check runs before the year is parsed. -/
theorem c9_counterexample :
    generatePdfCommand none ["20x5".toList] [] = ⟨none, none, .noTickets⟩
    ∧ PdfCmdReply.noTickets ≠ PdfCmdReply.usageHint :=
  ⟨rfl, by decide⟩

/-- C10 (amended): `load_receipts` returns the empty sequence for an absent
file; a present file yields exactly its parsed JSON contents (so the result
is also empty when the file holds an empty array), and contents that are not
valid JSON raise a decode error instead of yielding an empty sequence. -/
theorem c10_load (file : Option (List Char)) :
    loadReceipts none = .ok (.arr [])
    ∧ (∀ text, file = some text → parseJson text = none →
        loadReceipts file = .error .decodeError)
    ∧ (∀ text j, file = some text → parseJson text = some j → loadReceipts file = .ok j) := by
  refine ⟨rfl, ?_, ?_⟩
  · intro text hf h
    subst hf
    simp [loadReceipts, h]
  · intro text j hf h
    subst hf
    simp [loadReceipts, h]

/-- C10 witness: a corrupted file raises a decode error. -/
theorem c10_witness :
    parseJson "\x7boops".toList = none
    ∧ loadReceipts (some "\x7boops".toList) = .error .decodeError :=
  ⟨rfl, (c10_load (some "\x7boops".toList)).2.1 _ rfl rfl⟩

/-- C10 counterexample to the claim as stated: a present file containing
`[]` also loads as the empty sequence, so emptiness of the result does not
imply absence of the file. -/
theorem c10_counterexample :
    loadReceipts (some "[]".toList) = .ok (.arr [])
    ∧ (some ("[]".toList) : Option (List Char)) ≠ none :=
  ⟨rfl, by simp⟩

/-- C2 (amended): when extraction does not produce a truthy JSON object —
the model call failed, the reply is not parseable JSON, or it parses to a
falsy or non-dict value — the store is unchanged and the outcome is a
failure.  (A reply parsing to a non-empty JSON object is stored even when
its keys or types are wrong; see the counterexample.) -/
theorem c2_no_store_on_failure (store : List Json) (reply now : List Char)
    (h : extractionUsable reply = false) :
    (handlePhoto store reply now).fst = store
    ∧ (handlePhoto store reply now).snd ≠ .success := by
  unfold extractionUsable at h
  unfold handlePhoto
  cases ha : analyzeReceiptImage reply with
  | none => exact ⟨rfl, by simp⟩
  | some rd =>
    rw [ha] at h
    cases rd with
    | obj kvs =>
      cases kvs with
      | nil => simp [isFalsy]
      | cons p rest => simp at h
    | null => simp [isFalsy]
    | bool b =>
      cases b with
      | false => simp [isFalsy]
      | true => simp at h ⊢; simp [isFalsy]
    | num q =>
      by_cases hq : isFalsy (Json.num q)
      · simp [hq]
      · simp [hq]
    | str t =>
      by_cases hq : isFalsy (Json.str t)
      · simp [hq]
      · simp [hq]
    | arr l =>
      by_cases hq : isFalsy (Json.arr l)
      · simp [hq]
      · simp [hq]

/-- C2 witness: a prose-only reply fails extraction and the store stays
empty with a failure outcome. -/
theorem c2_witness :
    extractionUsable c2Reply = false
    ∧ (handlePhoto [] c2Reply []).fst = []
    ∧ (handlePhoto [] c2Reply []).snd ≠ .success :=
  ⟨rfl, (c2_no_store_on_failure [] c2Reply [] rfl).1,
   (c2_no_store_on_failure [] c2Reply [] rfl).2⟩

/-- C2 counterexample to the claim as stated: the reply is a well-formed
JSON object with none of the expected keys — a malformed reply in the
claim's sense — yet `handle_photo` appends it (with id and timestamp) and
saves the store before the `date` lookup fails, so the store is changed. -/
theorem c2_counterexample :
    (handlePhoto [] c2CexReply "T".toList).fst
      = [.obj [("foo".toList, .num ⟨1, 1⟩), (idKey, .num (Q.ofNat 1)),
               (tsKey, .str "T".toList)]]
    ∧ (handlePhoto [] c2CexReply "T".toList).snd = .processingError :=
  ⟨rfl, rfl⟩

theorem aLookup_append {κ α : Type} [DecidableEq κ] (m l2 : List (κ × α)) (k : κ) :
    aLookup (m ++ l2) k =
      (match aLookup m k with
       | some v => some v
       | none => aLookup l2 k) := by
  induction m with
  | nil => simp [aLookup]
  | cons p rest ih =>
    by_cases h : p.1 = k
    · simp [aLookup, h]
    · simp [aLookup, h, ih]

theorem aLookup_aUpdate_self {κ α : Type} [DecidableEq κ] (m : List (κ × α)) (k : κ)
    (v a : α) (h : aLookup m k = some a) : aLookup (aUpdate m k v) k = some v := by
  induction m with
  | nil => simp [aLookup] at h
  | cons p rest ih =>
    by_cases hp : p.1 = k
    · simp [aUpdate, aLookup, hp]
    · simp [aLookup, hp] at h
      simp [aUpdate, aLookup, hp, ih h]

theorem aLookup_aUpdate_other {κ α : Type} [DecidableEq κ] (m : List (κ × α)) {k k' : κ}
    (v : α) (h : k' ≠ k) : aLookup (aUpdate m k' v) k = aLookup m k := by
  induction m with
  | nil => simp [aUpdate, aLookup]
  | cons p rest ih =>
    by_cases hp : p.1 = k'
    · simp [aUpdate, aLookup, hp, h]
    · simp [aUpdate, aLookup, hp, ih]

set_option maxRecDepth 2000 in
/-- C8: the `show_total` monthly summary for fifty months of data is 4678
characters long — beyond the 4000-character bound the source itself
documents for the delivery channel — yet it is sent as a single delivery
unit: `show_total` has no chunking branch (only `show_list` has one). -/
theorem c8_summary_not_chunked :
    showTotalUnits c8Input = [showTotalResponse c8Input]
    ∧ 4000 < (showTotalResponse c8Input).length := by
  constructor
  · rfl
  · rw [showTotalResponse, List.length_append, List.length_append, List.length_flatMap]
    decide

theorem chunk4000Aux_mem_length :
    ∀ (fuel : Nat) (s u : List Char), u ∈ chunk4000Aux fuel s → u.length ≤ 4000 := by
  intro fuel
  induction fuel with
  | zero => intro s u hu; simp [chunk4000Aux] at hu
  | succ f ih =>
    intro s u hu
    cases s with
    | nil => simp [chunk4000Aux] at hu
    | cons c t =>
      simp only [chunk4000Aux] at hu
      rcases List.mem_cons.mp hu with he | hm
      · rw [he]
        exact List.length_take_le 4000 (c :: t)
      · exact ih _ _ hm

theorem chunk4000Aux_flatten :
    ∀ (fuel : Nat) (s : List Char), s.length < fuel → (chunk4000Aux fuel s).flatten = s := by
  intro fuel
  induction fuel with
  | zero => intro s h; omega
  | succ f ih =>
    intro s h
    cases s with
    | nil => rfl
    | cons c t =>
      simp only [chunk4000Aux, List.flatten_cons]
      rw [ih ((c :: t).drop 4000) (by simp at h ⊢; omega)]
      exact List.take_append_drop 4000 (c :: t)

/-- The chunking that `show_list` does perform slices the text into pieces
of at most 4000 characters whose concatenation is the original text; stated
for an arbitrary formatted text. -/
theorem showListUnits_spec (text : List Char) :
    (∀ u ∈ showListUnits text, u.length ≤ 4000)
    ∧ (showListUnits text).flatten = text := by
  unfold showListUnits
  by_cases h : 4000 < text.length
  · simp only [h, if_pos]
    exact ⟨fun u hu => chunk4000Aux_mem_length _ _ u hu,
           chunk4000Aux_flatten _ text (by omega)⟩
  · simp only [h, if_neg, Bool.false_eq_true, not_false_eq_true, List.flatten_cons,
      List.flatten_nil, List.append_nil]
    constructor
    · intro u hu
      simp only [List.mem_singleton] at hu
      subst hu
      omega
    · trivial

theorem aLookup_none_not_mem {κ α : Type} [DecidableEq κ] (m : List (κ × α)) (k : κ)
    (h : aLookup m k = none) : k ∉ m.map Prod.fst := by
  induction m with
  | nil => simp
  | cons p rest ih =>
    by_cases hp : p.1 = k
    · simp [aLookup, hp] at h
    · simp only [aLookup, hp, if_neg, List.map_cons, List.mem_cons] at h ⊢
      push_neg
      exact ⟨fun he => hp he.symm, ih h⟩

theorem map_fst_aUpdate {κ α : Type} [DecidableEq κ] (m : List (κ × α)) (k : κ) (v : α) :
    (aUpdate m k v).map Prod.fst = m.map Prod.fst := by
  induction m with
  | nil => rfl
  | cons p rest ih =>
    by_cases hp : p.1 = k
    · simp [aUpdate, hp]
    · simp [aUpdate, hp, ih]

theorem pdfGroups_keys_nodup :
    ∀ (rs : List Receipt) (m : List (List Char × (List Char × List Receipt))),
      (m.map Prod.fst).Nodup → ((rs.foldl pdfGroupStep m).map Prod.fst).Nodup := by
  intro rs
  induction rs with
  | nil => intro m h; exact h
  | cons r rs ih =>
    intro m h
    rw [List.foldl_cons]
    apply ih
    unfold pdfGroupStep
    cases hm : aLookup m (monthKeyStr r.date) with
    | none =>
      rw [List.map_append]
      exact List.nodup_append.mpr
        ⟨h, List.nodup_singleton _,
         fun a ha hb => by
           simp only [List.map_cons, List.map_nil, List.mem_singleton] at hb
           exact aLookup_none_not_mem m (monthKeyStr r.date) hm (hb ▸ ha)⟩
    | some nl => rw [map_fst_aUpdate]; exact h

theorem monthTableKeys_append (a b : List PdfElem) :
    monthTableKeys (a ++ b) = monthTableKeys a ++ monthTableKeys b :=
  List.filterMap_append a b _

theorem monthTableKeys_sections (g : List Char → List Char × List Receipt) :
    ∀ keys : List (List Char),
      monthTableKeys (keys.flatMap (fun k => monthSection k (g k))) = keys := by
  intro keys
  induction keys with
  | nil => rfl
  | cons k ks ih =>
    rw [List.flatMap_cons, monthTableKeys_append, ih]
    rfl

theorem strLeB_total : ∀ (a b : List Char), strLeB a b = true ∨ strLeB b a = true := by
  intro a
  induction a with
  | nil => intro b; left; rfl
  | cons x xs ih =>
    intro b
    cases b with
    | nil => right; rfl
    | cons y ys =>
      by_cases h1 : x.toNat < y.toNat
      · left; simp [strLeB, h1]
      · by_cases h2 : y.toNat < x.toNat
        · right; simp [strLeB, h2]
        · rcases ih ys with h | h
          · left; simp [strLeB, h1, h2, h]
          · right; simp [strLeB, h1, h2, h]

theorem strLeB_trans : ∀ (a b c : List Char), strLeB a b = true → strLeB b c = true →
    strLeB a c = true := by
  intro a
  induction a with
  | nil => intro b c _ _; rfl
  | cons x xs ih =>
    intro b c hab hbc
    cases b with
    | nil => exact absurd hab (by simp [strLeB])
    | cons y ys =>
      cases c with
      | nil => exact absurd hbc (by simp [strLeB])
      | cons z zs =>
        simp only [strLeB] at hab hbc ⊢
        split_ifs at hab hbc ⊢ <;>
          first
          | rfl
          | omega
          | (exact ih ys zs hab hbc)
          | (simp at hab)
          | (simp at hbc)

instance : IsTotal (List Char) keyStrGe :=
  ⟨fun a b => strLeB_total b a⟩

instance : IsTrans (List Char) keyStrGe :=
  ⟨fun a b c hab hbc => strLeB_trans c b a hbc hab⟩

instance : IsTotal Receipt rawDateLe :=
  ⟨fun a b => strLeB_total a.dateStr b.dateStr⟩

instance : IsTrans Receipt rawDateLe :=
  ⟨fun a b c hab hbc => strLeB_trans a.dateStr b.dateStr c.dateStr hab hbc⟩

/-- C5, amended: in the PDF document the month tables appear in strictly
descending order of their `'%Y-%m'` key strings, and the rows of every
month table are sorted ascending by the RAW stored date string — which
coincides with month-descending / date-ascending exactly when the stored
date strings are zero-padded with four-digit years, but not in general
(see the counterexample). -/
theorem c5_pdf_order (rs : List Receipt) (now : List Char) :
    List.Sorted keyStrGt (monthTableKeys (generatePdf rs none now))
    ∧ (∀ k rows tl tv tp, PdfElem.monthTable k rows tl tv tp ∈ generatePdf rs none now →
        List.Sorted rawDateLe rows) := by
  have hgen : generatePdf rs none now =
      (if rs.isEmpty then
        [.title (pdfTitle none), .spacerE, .para noTicketsNotice]
      else
        [.title (pdfTitle none), .para ("Généré le ".toList ++ now), .spacerE]
        ++ (List.insertionSort keyStrGe ((pdfGroups rs).map Prod.fst)).flatMap
             (fun k => monthSection k ((aLookup (pdfGroups rs) k).getD ([], [])))
        ++ [.pageBreakE, .title "📊 RÉSUMÉ ANNUEL".toList, .spacerE,
            .summaryTable rs.length (totalLiters rs) (avgPricePerLiter rs)
              (totalVat rs) (totalPriceSum rs)]) := rfl
  rw [hgen]
  by_cases he : rs.isEmpty
  · rw [if_pos he]
    constructor
    · exact List.sorted_nil
    · intro k rows tl tv tp hmem
      simp at hmem
  · rw [if_neg he]
    constructor
    · rw [monthTableKeys_append, monthTableKeys_append, monthTableKeys_sections]
      have h1 : monthTableKeys
          [PdfElem.title (pdfTitle none), .para ("Généré le ".toList ++ now), .spacerE] = [] := rfl
      have h2 : monthTableKeys
          [PdfElem.pageBreakE, .title "📊 RÉSUMÉ ANNUEL".toList, .spacerE,
           .summaryTable rs.length (totalLiters rs) (avgPricePerLiter rs)
             (totalVat rs) (totalPriceSum rs)] = [] := rfl
      rw [h1, h2, List.nil_append, List.append_nil]
      have hs := List.sorted_insertionSort keyStrGe ((pdfGroups rs).map Prod.fst)
      have hn0 : ((pdfGroups rs).map Prod.fst).Nodup := pdfGroups_keys_nodup rs [] (by simp)
      have hn : (List.insertionSort keyStrGe ((pdfGroups rs).map Prod.fst)).Nodup :=
        ((List.perm_insertionSort keyStrGe _).nodup_iff).mpr hn0
      exact hs.and hn
    · intro k rows tl tv tp hmem
      simp only [List.mem_append, List.mem_cons, List.not_mem_nil, or_false,
        List.mem_flatMap] at hmem
      rcases hmem with ((h | h | h) | ⟨k', _, hsec⟩) | (h | h | h | h)
      · cases h
      · cases h
      · cases h
      · simp only [monthSection, List.mem_cons, List.not_mem_nil, or_false] at hsec
        rcases hsec with h | h | h | h
        · cases h
        · cases h
        · cases h
          exact List.sorted_insertionSort rawDateLe _
        · cases h
      · cases h
      · cases h
      · cases h
      · cases h

set_option maxRecDepth 2000 in
/-- C5 witness: with a January and a February 2025 record, the February
table appears (first) in the document with its rows in raw-date-string
order; the key-string sequence of the document is strictly descending. -/
theorem c5_witness :
    (PdfElem.monthTable "2025-02".toList [c7Receipt] ⟨50, 1⟩ ⟨12, 1⟩ ⟨75, 1⟩
      ∈ generatePdf [c4A, c7Receipt] none [])
    ∧ List.Sorted rawDateLe [c7Receipt]
    ∧ List.Sorted keyStrGt (monthTableKeys (generatePdf [c4A, c7Receipt] none [])) := by
  have hmem : PdfElem.monthTable "2025-02".toList [c7Receipt] ⟨50, 1⟩ ⟨12, 1⟩ ⟨75, 1⟩
      ∈ generatePdf [c4A, c7Receipt] none [] :=
    .tail _ (.tail _ (.tail _ (.tail _ (.tail _ (.head _)))))
  exact ⟨hmem, (c5_pdf_order [c4A, c7Receipt] []).2 _ _ _ _ _ hmem,
         (c5_pdf_order [c4A, c7Receipt] []).1⟩

set_option maxRecDepth 2000 in
/-- C5 counterexample: two February-2025 records whose stored date strings
are `2025-02-15` and the `strptime`-accepted unpadded `2025-2-1` land in the
same month table, and because line 318 sorts by the raw strings the rows
come out [Feb 15, Feb 1] — NOT ascending by date, refuting the claimed
within-month order. -/
theorem c5_counterexample :
    (PdfElem.monthTable "2025-02".toList [c5X, c5Y] ⟨75, 1⟩ ⟨17, 1⟩ ⟨110, 1⟩
      ∈ generatePdf [c5Y, c5X] none [])
    ∧ c5X.date = ⟨2025, 2, 15⟩ ∧ c5Y.date = ⟨2025, 2, 1⟩
    ∧ ¬ dateLe c5X c5Y := by
  refine ⟨.tail _ (.tail _ (.tail _ (.tail _ (.tail _ (.head _))))), rfl, rfl, by decide⟩

theorem dropWhile_append_all {p : Char → Bool} (a b : List Char) (h : a.all p = true) :
    (a ++ b).dropWhile p = b.dropWhile p := by
  induction a with
  | nil => rfl
  | cons c t ih =>
    simp only [List.all_cons, Bool.and_eq_true] at h
    simp [List.dropWhile_cons, h.1, ih h.2]

theorem dropWhile_cons_neg {p : Char → Bool} {c : Char} (hc : p c = false) (t : List Char) :
    (c :: t).dropWhile p = c :: t := by
  simp [List.dropWhile_cons, hc]

theorem dropWhile_length_le (p : Char → Bool) :
    ∀ (l : List Char), (l.dropWhile p).length ≤ l.length := by
  intro l
  induction l with
  | nil => exact Nat.le_refl _
  | cons c t ih =>
    rw [List.dropWhile_cons]
    by_cases hp : p c
    · rw [if_pos hp]
      exact ih.trans (by simp)
    · rw [if_neg hp]

theorem dropWhile_len_eq {p : Char → Bool} :
    ∀ {l : List Char}, (l.dropWhile p).length = l.length → l.dropWhile p = l := by
  intro l
  induction l with
  | nil => intro _; rfl
  | cons c t ih =>
    intro h
    by_cases hp : p c
    · rw [List.dropWhile_cons, if_pos hp] at h ⊢
      have := dropWhile_length_le p t
      simp at h
      omega
    · rw [List.dropWhile_cons, if_neg hp]

theorem dropWhile_head_neg {p : Char → Bool} {c : Char} {t : List Char}
    (h : (c :: t).dropWhile p = c :: t) : p c = false := by
  by_cases hp : p c
  · rw [List.dropWhile_cons, if_pos hp] at h
    have h1 := dropWhile_length_le p t
    have h2 := congrArg List.length h
    simp at h2
    omega
  · simpa using hp

/-- From `pyStrip s = s`: the leading strip is the identity on `s`. -/
theorem pyStrip_self_left {s : List Char} (h : pyStrip s = s) :
    s.dropWhile isPySpace = s := by
  apply dropWhile_len_eq
  have h1 := dropWhile_length_le isPySpace s
  have h2 := dropWhile_length_le isPySpace (s.dropWhile isPySpace).reverse
  have h3 := congrArg List.length h
  simp only [pyStrip, List.length_reverse] at h3
  simp only [List.length_reverse] at h2
  omega

/-- From `pyStrip s = s`: the trailing strip is the identity on `s.reverse`. -/
theorem pyStrip_self_right {s : List Char} (h : pyStrip s = s) :
    s.reverse.dropWhile isPySpace = s.reverse := by
  have h1 := pyStrip_self_left h
  unfold pyStrip at h
  rw [h1] at h
  have := congrArg List.reverse h
  simpa using this

theorem pyStrip_sandwich (ws1 ws2 a : List Char)
    (h1 : ws1.all isPySpace = true) (h2 : ws2.all isPySpace = true)
    (hh : a.dropWhile isPySpace = a)
    (hl : a.reverse.dropWhile isPySpace = a.reverse) :
    pyStrip (ws1 ++ a ++ ws2) = a := by
  unfold pyStrip
  rw [List.append_assoc, dropWhile_append_all ws1 _ h1]
  cases ha : a with
  | nil =>
    have hws2 : ws2.dropWhile isPySpace = [] := by
      have := dropWhile_append_all ws2 [] h2
      simpa using this
    simp [hws2]
  | cons c t =>
    have hc : isPySpace c = false := dropWhile_head_neg (ha ▸ hh)
    rw [← ha]
    have hfront : (a ++ ws2).dropWhile isPySpace = a ++ ws2 := by
      rw [ha]
      exact dropWhile_cons_neg hc (t ++ ws2)
    rw [hfront, List.reverse_append, dropWhile_append_all _ _ (by simpa using h2), hl]
    simp

theorem lpre_append_self : ∀ (p s : List Char), lpre p (p ++ s) = true := by
  intro p
  induction p with
  | nil => intro s; rfl
  | cons c t ih => intro s; simp [lpre, ih]

theorem lpre_length : ∀ {p s : List Char}, lpre p s = true → p.length ≤ s.length := by
  intro p
  induction p with
  | nil => intro s _; simp
  | cons c t ih =>
    intro s h
    cases s with
    | nil => simp [lpre] at h
    | cons b bs =>
      simp only [lpre, Bool.and_eq_true] at h
      have := ih h.2
      simp
      omega

theorem lpre_of_append_left : ∀ {p q s : List Char}, lpre (p ++ q) s = true → lpre p s = true := by
  intro p
  induction p with
  | nil => intro q s _; rfl
  | cons c t ih =>
    intro q s h
    cases s with
    | nil => simp [lpre] at h
    | cons b bs =>
      simp only [List.cons_append, lpre, Bool.and_eq_true] at h ⊢
      exact ⟨h.1, ih h.2⟩

theorem lpre_restrict : ∀ {p s t : List Char}, lpre p (s ++ t) = true → p.length ≤ s.length →
    lpre p s = true := by
  intro p
  induction p with
  | nil => intro s t _ _; rfl
  | cons c cp ih =>
    intro s t h hlen
    cases s with
    | nil => simp at hlen
    | cons b bs =>
      simp only [List.cons_append, lpre, Bool.and_eq_true] at h ⊢
      refine ⟨h.1, ih h.2 ?_⟩
      simp at hlen
      omega

theorem hasSub_of_lpre : ∀ {p s : List Char}, lpre p s = true → hasSub p s = true := by
  intro p s h
  cases s with
  | nil => simpa [hasSub] using h
  | cons c t => simp [hasSub, h]

theorem hasSub_cons_elim {p : List Char} {c : Char} {t : List Char}
    (h : hasSub p (c :: t) = false) : lpre p (c :: t) = false ∧ hasSub p t = false := by
  simpa [hasSub] using h

theorem hasSub_mono : ∀ {p q s : List Char}, hasSub p s = false → hasSub (p ++ q) s = false := by
  intro p q s
  induction s with
  | nil =>
    intro h
    simp only [hasSub] at h ⊢
    cases hq : lpre (p ++ q) []
    · rfl
    · rw [lpre_of_append_left hq] at h
      exact h
  | cons c t ih =>
    intro h
    rcases hasSub_cons_elim h with ⟨h1, h2⟩
    simp only [hasSub, Bool.or_eq_false_iff]
    refine ⟨?_, ih h2⟩
    cases hq : lpre (p ++ q) (c :: t)
    · rfl
    · rw [lpre_of_append_left hq] at h1
      exact h1

theorem repAux_id (p r : List Char) :
    ∀ (fuel : Nat) (s : List Char), hasSub p s = false → repAux p r fuel s = s := by
  intro fuel
  induction fuel with
  | zero => intro s _; rfl
  | succ f ih =>
    intro s h
    cases s with
    | nil =>
      have hc : (lpre p [] && !p.isEmpty) = false := by
        cases p with
        | nil => rfl
        | cons a q => rfl
      rw [repAux, hc]
      simp
    | cons c t =>
      rcases hasSub_cons_elim h with ⟨h1, h2⟩
      rw [repAux, if_neg (by simp [h1])]
      rw [ih t h2]

theorem repAux_nil (p r : List Char) (hp : p ≠ []) : ∀ fuel, repAux p r fuel [] = [] := by
  intro fuel
  cases fuel with
  | zero => rfl
  | succ f =>
    have hc : (lpre p [] && !p.isEmpty) = false := by
      cases p with
      | nil => exact absurd rfl hp
      | cons a q => rfl
    rw [repAux, hc]
    simp

theorem repAux_succ (p r : List Char) (f : Nat) (s : List Char) :
    repAux p r (f + 1) s =
      if lpre p s && !p.isEmpty then r ++ repAux p r f (s.drop p.length)
      else
        match s with
        | [] => []
        | c :: t => c :: repAux p r f t := rfl

theorem pyReplace_strip_lead {p rest : List Char} (h : hasSub p rest = false) (hp : p ≠ []) :
    pyReplace (p ++ rest) p [] = rest := by
  unfold pyReplace
  rw [repAux_succ, if_pos (by simp [lpre_append_self, hp])]
  rw [List.drop_left]
  rw [repAux_id p [] _ rest h]
  rfl

theorem fenceJson_decomp : fenceJsonTok = fenceTok ++ "json".toList := rfl

theorem hasSub_fj_straddle {b : List Char} (h : hasSub fenceTok b = false) :
    hasSub fenceJsonTok (b ++ fenceTok) = false := by
  induction b with
  | nil => decide
  | cons c b' ih =>
    rcases hasSub_cons_elim h with ⟨h1, h2⟩
    show hasSub fenceJsonTok (c :: (b' ++ fenceTok)) = false
    simp only [hasSub, Bool.or_eq_false_iff]
    refine ⟨?_, ih h2⟩
    cases hq : lpre fenceJsonTok (c :: (b' ++ fenceTok))
    · rfl
    · exfalso
      have hlen := lpre_length hq
      have h7 : fenceJsonTok.length = 7 := rfl
      have h3 : fenceTok.length = 3 := rfl
      simp only [h7, List.length_cons, List.length_append, h3] at hlen
      rw [fenceJson_decomp] at hq
      have hq3 : lpre fenceTok (c :: (b' ++ fenceTok)) = true := lpre_of_append_left hq
      have hq4 : lpre fenceTok (c :: b') = true := by
        have := lpre_restrict (s := c :: b') (t := fenceTok)
          (by simpa using hq3) (by simp [h3]; omega)
        exact this
      rw [hq4] at h1
      exact absurd h1 (by simp)

theorem repAux_trailing :
    ∀ (b : List Char) (fuel : Nat), b.length < fuel → hasSub fenceTok b = false →
      b.getLast? = some '}' → repAux fenceTok [] fuel (b ++ fenceTok) = b := by
  intro b
  induction b with
  | nil => intro fuel _ _ hlast; simp at hlast
  | cons c b1 ih =>
    intro fuel hfuel h hlast
    rcases hasSub_cons_elim h with ⟨h1, h2⟩
    cases fuel with
    | zero => omega
    | succ f =>
      cases b1 with
      | nil =>
        have hc : c = '}' := by simpa using hlast
        subst hc
        rw [repAux_succ, if_neg (by decide)]
        show '}' :: repAux fenceTok [] f ([] ++ fenceTok) = ['}']
        have hf1 : 1 ≤ f := by simpa using hfuel
        cases f with
        | zero => omega
        | succ f2 =>
          rw [List.nil_append, repAux_succ, if_pos (by decide)]
          rw [show fenceTok.drop fenceTok.length = [] from rfl]
          rw [repAux_nil fenceTok [] (by decide) f2]
          rfl
      | cons d b2 =>
        have hlast2 : (d :: b2).getLast? = some '}' := by
          rwa [List.getLast?_cons_cons] at hlast
        have hcond : lpre fenceTok (c :: d :: (b2 ++ fenceTok)) = false := by
          cases hq : lpre fenceTok (c :: d :: (b2 ++ fenceTok))
          · rfl
          · exfalso
            cases b2 with
            | nil =>
              have hd : d = '}' := by simpa using hlast2
              subst hd
              have hfalse : lpre fenceTok (c :: '}' :: ([] ++ fenceTok)) = false := by
                show (('`' == c) && (('`' == '}') && lpre ['`'] fenceTok)) = false
                rw [show ('`' == '}') = false from rfl]
                simp
              rw [hfalse] at hq
              exact Bool.noConfusion hq
            | cons e b3 =>
              have hq4 : lpre fenceTok (c :: d :: e :: b3) = true :=
                lpre_restrict (s := c :: d :: e :: b3) (t := fenceTok) hq
                  (by rw [show fenceTok.length = 3 from rfl]; simp)
              rw [hq4] at h1
              exact absurd h1 (by simp)
        rw [repAux_succ, if_neg (by simp [hcond])]
        show c :: repAux fenceTok [] f ((d :: b2) ++ fenceTok) = c :: d :: b2
        rw [ih f (by simpa using hfuel) h2 hlast2]

theorem cleanReply_bare (ws1 ws2 body : List Char)
    (h1 : ws1.all isPySpace = true) (h2 : ws2.all isPySpace = true)
    (hstrip : pyStrip body = body) (hfence : hasSub fenceTok body = false) :
    cleanReply (ws1 ++ body ++ ws2) = body := by
  unfold cleanReply
  rw [pyStrip_sandwich ws1 ws2 body h1 h2 (pyStrip_self_left hstrip)
    (pyStrip_self_right hstrip)]
  have hfj : hasSub fenceJsonTok body = false := by
    rw [fenceJson_decomp]
    exact hasSub_mono hfence
  rw [show pyReplace body fenceJsonTok [] = body from repAux_id _ _ _ body hfj]
  rw [show pyReplace body fenceTok [] = body from repAux_id _ _ _ body hfence]
  exact hstrip

theorem cleanReply_wrapped (ws1 ws2 body : List Char)
    (h1 : ws1.all isPySpace = true) (h2 : ws2.all isPySpace = true)
    (hstrip : pyStrip body = body) (hfence : hasSub fenceTok body = false)
    (hlast : body.getLast? = some '}') :
    cleanReply (ws1 ++ (fenceJsonTok ++ body ++ fenceTok) ++ ws2) = body := by
  unfold cleanReply
  have hh : (fenceJsonTok ++ body ++ fenceTok).dropWhile isPySpace
      = fenceJsonTok ++ body ++ fenceTok := by
    rw [show fenceJsonTok ++ body ++ fenceTok
      = '`' :: (("``json".toList ++ body) ++ fenceTok) from rfl]
    exact dropWhile_cons_neg (by decide) _
  have hlrev : (fenceJsonTok ++ body ++ fenceTok).reverse.dropWhile isPySpace
      = (fenceJsonTok ++ body ++ fenceTok).reverse := by
    rw [List.reverse_append]
    rw [show fenceTok.reverse = '`' :: ['`', '`'] from rfl]
    rw [List.cons_append]
    exact dropWhile_cons_neg (by decide) _
  rw [pyStrip_sandwich ws1 ws2 _ h1 h2 hh hlrev]
  rw [List.append_assoc]
  rw [pyReplace_strip_lead (hasSub_fj_straddle hfence) (by decide)]
  rw [show pyReplace (body ++ fenceTok) fenceTok [] = body from
    repAux_trailing body _
      (by simp [show fenceTok.length = 3 from rfl]; omega) hfence hlast]
  exact hstrip

/-- C1 (amended): any reply whose trimmed text is a valid JSON object of the
expected six-field shape and contains no code-fence marker sequence inside
the JSON text itself — whether sent bare or wrapped in a ```json … ``` block,
with arbitrary extra leading/trailing whitespace — is extracted successfully
and the returned record is exactly the parsed JSON object, every field
included. -/
theorem c1_extraction (body ws1 ws2 : List Char) (j : Json)
    (hp : parseJson body = some j) (hshape : expectedShape j = true)
    (hfence : hasSub fenceTok body = false)
    (hstrip : pyStrip body = body) (hlast : body.getLast? = some '}')
    (h1 : ws1.all isPySpace = true) (h2 : ws2.all isPySpace = true) :
    analyzeReceiptImage (ws1 ++ body ++ ws2) = some j
    ∧ analyzeReceiptImage (ws1 ++ (fenceJsonTok ++ body ++ fenceTok) ++ ws2) = some j := by
  unfold analyzeReceiptImage
  rw [cleanReply_bare ws1 ws2 body h1 h2 hstrip hfence,
      cleanReply_wrapped ws1 ws2 body h1 h2 hstrip hfence hlast]
  exact ⟨hp, hp⟩

set_option maxRecDepth 4000 in
/-- C1 witness: a concrete six-field JSON reply, extracted both bare and
fence-wrapped with surrounding whitespace. -/
theorem c1_witness :
    (parseJson c1Body = some c1Json
     ∧ expectedShape c1Json = true
     ∧ hasSub fenceTok c1Body = false
     ∧ pyStrip c1Body = c1Body
     ∧ c1Body.getLast? = some '}')
    ∧ analyzeReceiptImage (" \n".toList ++ c1Body ++ "\n ".toList) = some c1Json
    ∧ analyzeReceiptImage
        (" \n".toList ++ (fenceJsonTok ++ c1Body ++ fenceTok) ++ "\n ".toList)
        = some c1Json := by
  refine ⟨⟨rfl, rfl, rfl, rfl, rfl⟩, ?_⟩
  exact c1_extraction c1Body " \n".toList "\n ".toList c1Json rfl rfl rfl rfl rfl rfl rfl

set_option maxRecDepth 4000 in
/-- C1 counterexample to the claim as stated: `c1CexBody` is a valid JSON
object of the expected six-field shape (no wrapping at all), yet extraction
returns a record whose `fuel_type` is "AB" instead of the JSON's "A```B" —
the fence-removal `replace` deletes backtick runs inside string values. -/
theorem c1_counterexample :
    parseJson c1CexBody = some c1CexJson
    ∧ expectedShape c1CexJson = true
    ∧ analyzeReceiptImage c1CexBody = some c1CexParsed
    ∧ getField c1CexParsed fuelKey = some (.str "AB".toList)
    ∧ getField c1CexJson fuelKey = some (.str "A```B".toList)
    ∧ ("AB".toList : List Char) ≠ "A```B".toList :=
  ⟨rfl, rfl, rfl, rfl, rfl, by decide⟩
